import Mathlib

/-!
Verification of the Intelligems Analytics decision core.

The repository's decision logic (verdict classification, funnel breakpoint
detection, segment contradiction flags, rollout recommendations, and financial
projections) is embedded here as executable Lean definitions, translated from
the Python sources under the seven CLI tools.  Python floats are modelled as
exact rationals (every threshold comparison in the source is an order
comparison on literals, so the rational model preserves each branch), and
Python's `None` is modelled as `Option.none`.
-/

namespace Intelligems

/-- The verdict categories produced by the classifiers.  The five overall
verdicts come from `compute_verdict` / `variation_verdict`; `LOW_DATA` is the
additional segment-scoped category. -/
inductive Verdict where
  | WINNER
  | LOSER
  | FLAT
  | KEEP_RUNNING
  | TOO_EARLY
  | LOW_DATA
deriving DecidableEq, Repr

/-- `MIN_CONFIDENCE` from `ig_config.py`: 0.80. -/
def MIN_CONFIDENCE : ℚ := 80 / 100

/-- `NEUTRAL_LIFT_THRESHOLD` from `ig_config.py`: 0.02. -/
def NEUTRAL_LIFT_THRESHOLD : ℚ := 2 / 100

/-- `VERDICT_MIN_RUNTIME` from `ig_config.py`: 10 days. -/
def VERDICT_MIN_RUNTIME : ℤ := 10

/-- `VERDICT_MIN_ORDERS` from `ig_config.py`: 30 orders. -/
def VERDICT_MIN_ORDERS : ℤ := 30

/-- `MIN_VISITORS` from `ig_config.py`: 100 visitors. -/
def MIN_VISITORS : ℤ := 100

/-- `compute_verdict(p2bb, uplift, days, total_orders)` from
`rollout-brief/references/rollout.py` (lines 59-71); the definition in
`test-debrief/references/debrief.py` (lines 60-72) is textually identical. -/
def compute_verdict (p2bb uplift : Option ℚ) (days total_orders : ℤ) : Verdict :=
  if days < VERDICT_MIN_RUNTIME ∨ total_orders < VERDICT_MIN_ORDERS then
    Verdict.TOO_EARLY
  else
    match p2bb, uplift with
    | none, _ => Verdict.TOO_EARLY
    | _, none => Verdict.TOO_EARLY
    | some p, some u =>
      if MIN_CONFIDENCE ≤ p ∧ NEUTRAL_LIFT_THRESHOLD < u then Verdict.WINNER
      else if MIN_CONFIDENCE ≤ 1 - p ∧ u < -NEUTRAL_LIFT_THRESHOLD then Verdict.LOSER
      else if (21 : ℤ) ≤ days ∧ |u| ≤ NEUTRAL_LIFT_THRESHOLD then Verdict.FLAT
      else Verdict.KEEP_RUNNING

/-- The spec's reference `classify` pseudocode (spec §4.3), with the
thresholds as explicit parameters, transcribed from the spec's words. -/
def classifySpec (p2bb uplift : Option ℚ) (runtimeDays totalOrders : ℤ)
    (minRuntime minOrders : ℤ) (minConfidence neutralThreshold : ℚ) : Verdict :=
  if runtimeDays < minRuntime ∨ totalOrders < minOrders then Verdict.TOO_EARLY
  else if p2bb = none ∨ uplift = none then Verdict.TOO_EARLY
  else
    let p := p2bb.getD 0
    let u := uplift.getD 0
    if minConfidence ≤ p ∧ neutralThreshold < u then Verdict.WINNER
    else if minConfidence ≤ 1 - p ∧ u < -neutralThreshold then Verdict.LOSER
    else if (21 : ℤ) ≤ runtimeDays ∧ |u| ≤ neutralThreshold then Verdict.FLAT
    else Verdict.KEEP_RUNNING

/-- `segment_verdict(p2bb, uplift, days)` from
`segment-spotlight/references/spotlight.py` (lines 57-71); the definition in
`rollout-brief/references/rollout.py` (lines 86-96) is textually identical. -/
def segment_verdict (p2bb uplift : Option ℚ) (days : ℤ) : Verdict :=
  match p2bb, uplift with
  | none, _ => Verdict.LOW_DATA
  | _, none => Verdict.LOW_DATA
  | some p, some u =>
    if MIN_CONFIDENCE ≤ p ∧ NEUTRAL_LIFT_THRESHOLD < u then Verdict.WINNER
    else if MIN_CONFIDENCE ≤ 1 - p ∧ u < -NEUTRAL_LIFT_THRESHOLD then Verdict.LOSER
    else if (21 : ℤ) ≤ days ∧ |u| ≤ NEUTRAL_LIFT_THRESHOLD then Verdict.FLAT
    else Verdict.KEEP_RUNNING

/-- `variation_verdict(p2bb, uplift, days)` from
`test-verdict/references/verdict.py` (lines 86-100). -/
def variation_verdict (p2bb uplift : Option ℚ) (days : ℤ) : Verdict :=
  match p2bb, uplift with
  | none, _ => Verdict.TOO_EARLY
  | _, none => Verdict.TOO_EARLY
  | some p, some u =>
    if MIN_CONFIDENCE ≤ p ∧ NEUTRAL_LIFT_THRESHOLD < u then Verdict.WINNER
    else if MIN_CONFIDENCE ≤ 1 - p ∧ u < -NEUTRAL_LIFT_THRESHOLD then Verdict.LOSER
    else if (21 : ℤ) ≤ days ∧ |u| ≤ NEUTRAL_LIFT_THRESHOLD then Verdict.FLAT
    else Verdict.KEEP_RUNNING

/-- The segment quick-check site in `test-verdict/references/verdict.py`
(lines 407-410): `LOW DATA` when the segment uplift is absent, otherwise
`variation_verdict(seg_p2bb, seg_uplift, days)`. -/
def verdict_segment_quick_check (seg_p2bb seg_uplift : Option ℚ) (days : ℤ) : Verdict :=
  match seg_uplift with
  | some _ => variation_verdict seg_p2bb seg_uplift days
  | none => Verdict.LOW_DATA

/-- The three uplift directions used by `find_breakpoint` in
`funnel-diagnosis/references/funnel.py` (line 118). -/
inductive Dir where
  | up
  | down
  | flat
deriving DecidableEq, Repr

/-- A funnel stage as consumed by `find_breakpoint`: its display label and its
(possibly absent) uplift.  The source's stage dicts carry further fields not
read by the breakpoint scan. -/
structure Stage where
  label : String
  uplift : Option ℚ
deriving DecidableEq, Repr

/-- The direction classification on line 118 of `funnel.py`:
`"up" if s["uplift"] > 0.005 else ("down" if s["uplift"] < -0.005 else "flat")`. -/
def stage_direction (u : ℚ) : Dir :=
  if 5 / 1000 < u then Dir.up
  else if u < -(5 / 1000) then Dir.down
  else Dir.flat

/-- The scanning loop of `find_breakpoint` from `funnel.py` (lines 108-123),
with the mutable `prev_direction` made an explicit parameter.  Stages with an
absent uplift are skipped; a stage whose direction flips against the tracked
non-flat direction is returned; `prev_direction` is updated only by non-flat
directions. -/
def find_breakpoint_loop (prev : Option Dir) : List Stage → Option Stage
  | [] => none
  | s :: rest =>
    match s.uplift with
    | none => find_breakpoint_loop prev rest
    | some u =>
      match prev with
      | some pd =>
        if stage_direction u ≠ pd ∧ stage_direction u ≠ Dir.flat ∧ pd ≠ Dir.flat then
          some s
        else
          find_breakpoint_loop
            (if stage_direction u ≠ Dir.flat then some (stage_direction u) else some pd) rest
      | none =>
        find_breakpoint_loop
          (if stage_direction u ≠ Dir.flat then some (stage_direction u) else none) rest

/-- `find_breakpoint(stages)` from `funnel.py` (lines 108-123): the scan starts
with no tracked direction. -/
def find_breakpoint (stages : List Stage) : Option Stage :=
  find_breakpoint_loop none stages

/-- `daily_visitors(total_visitors, runtime)` from
`intelligems-core/references/ig_helpers.py` (lines 125-129).  Visitor totals
are counts, modelled as `ℕ`. -/
def daily_visitors (total_visitors : ℕ) (runtime : ℤ) : ℚ :=
  if runtime ≤ 0 then 0 else (total_visitors : ℚ) / (runtime : ℚ)

/-- The output record of the profit-impact financial projector. -/
structure FinancialProjection where
  annual_baseline : ℚ
  expected_annual : ℚ
  conservative_annual : Option ℚ
  optimistic_annual : Option ℚ
  expected_monthly : ℚ
  daily_impact : ℚ
deriving Repr

/-- The core financial calculations of `profit-impact/references/impact.py`:
`avg_daily_visitors` (line 242), `annual_visitors`, `annual_baseline`,
`expected_annual`, `conservative_annual`, `optimistic_annual`,
`expected_monthly` (lines 264-285) and `daily_impact` (line 336). -/
def project_impact (total_visitors : ℕ) (runtime : ℤ) (control_value uplift : ℚ)
    (ci_low ci_high : Option ℚ) : FinancialProjection :=
  let avg_daily_visitors : ℚ :=
    if 0 < runtime then daily_visitors total_visitors runtime else 0
  let annual_visitors := avg_daily_visitors * 365
  let annual_baseline := annual_visitors * control_value
  let expected_annual := annual_baseline * uplift
  let conservative_annual : Option ℚ :=
    match ci_low with
    | some l => some (if 0 < l then annual_baseline * l else 0)
    | none => none
  let optimistic_annual : Option ℚ :=
    match ci_high with
    | some h => some (annual_baseline * h)
    | none => none
  let expected_monthly := expected_annual / 12
  let daily_impact := if expected_annual ≠ 0 then expected_annual / 365 else 0
  ⟨annual_baseline, expected_annual, conservative_annual, optimistic_annual,
   expected_monthly, daily_impact⟩

/-- The segment-contradiction check from
`segment-spotlight/references/spotlight.py` (lines 268-274); the check in
`rollout-brief/references/rollout.py` (lines 352-357) is textually
identical. -/
def contradiction_flag (overall_uplift seg_uplift : Option ℚ) : Bool :=
  match overall_uplift, seg_uplift with
  | some o, some s =>
    if NEUTRAL_LIFT_THRESHOLD < o ∧ s < -NEUTRAL_LIFT_THRESHOLD then true
    else if o < -NEUTRAL_LIFT_THRESHOLD ∧ NEUTRAL_LIFT_THRESHOLD < s then true
    else false
  | _, _ => false

/-- A segment result as consumed by `rollout_recommendation`: its display name
and verdict.  The source's segment dicts carry further fields that the
recommendation does not read. -/
structure SegResult where
  name : String
  verdict : Verdict
deriving DecidableEq, Repr

/-- The reason string of the SEGMENT-SPECIFIC branch of
`rollout_recommendation` (spotlight.py lines 112-121): the format call
`"Consider rolling out to {0} only. {1} {2} underperforming — exclude or
investigate."` applied to the first three winner names, the first three loser
names, and "is"/"are" by loser count. -/
def segment_specific_reason (winners losers : List SegResult) : String :=
  "Consider rolling out to "
    ++ String.intercalate ", " ((winners.take 3).map (fun s => s.name))
    ++ " only. "
    ++ String.intercalate ", " ((losers.take 3).map (fun s => s.name))
    ++ " "
    ++ (if losers.length = 1 then "is" else "are")
    ++ " underperforming — exclude or investigate."

/-- `rollout_recommendation(segments)` from
`segment-spotlight/references/spotlight.py` (lines 98-129).  Python's
`total * 0.5` float comparison is exact (0.5 is a binary float), modelled
as the rational comparison against `total * (5/10)`. -/
def rollout_recommendation (segments : List SegResult) : String × String :=
  let winners := segments.filter (fun s => s.verdict = Verdict.WINNER)
  let losers := segments.filter (fun s => s.verdict = Verdict.LOSER)
  let low_data := segments.filter (fun s => s.verdict = Verdict.LOW_DATA)
  let total := segments.length
  if total = 0 then
    ("HOLD", "No segment data available for analysis.")
  else if losers.length = 0 ∧ (total : ℚ) * (5 / 10) ≤ (winners.length : ℚ) then
    ("ROLL OUT", "No losing segments. Roll out to all traffic.")
  else if 0 < losers.length ∧ 0 < winners.length then
    ("SEGMENT-SPECIFIC", segment_specific_reason winners losers)
  else if 0 < losers.length ∧ winners.length = 0 then
    ("DON'T ROLL OUT", "No winning segments found. The variant is hurting performance.")
  else if (total : ℚ) * (5 / 10) < (low_data.length : ℚ) then
    ("HOLD", "Most segments have insufficient data. Let the test run longer.")
  else
    ("HOLD", "Mixed signals. Monitor for another few days before making a call.")

/-- The five outcome categories of the spec's rollout composition rules. -/
inductive RolloutRec where
  | rollOutBroadly
  | segmentSpecific
  | doNotRollOut
  | holdForMoreData
  | mixedSignalHold
deriving DecidableEq, Repr

/-- The spec's composition rules (§4.5), transcribed from the spec's words and
evaluated in order: no losers and ≥50% winners → roll out broadly; both
winners and losers present → segment-specific; losers with no winners → do not
roll out; majority low-data → hold for more data; otherwise → mixed-signal
hold. -/
def recommendation_spec (segments : List SegResult) : RolloutRec :=
  let winners := segments.filter (fun s => s.verdict = Verdict.WINNER)
  let losers := segments.filter (fun s => s.verdict = Verdict.LOSER)
  let low_data := segments.filter (fun s => s.verdict = Verdict.LOW_DATA)
  let total := segments.length
  if losers.length = 0 ∧ (total : ℚ) * (5 / 10) ≤ (winners.length : ℚ) then
    RolloutRec.rollOutBroadly
  else if 0 < losers.length ∧ 0 < winners.length then
    RolloutRec.segmentSpecific
  else if 0 < losers.length ∧ winners.length = 0 then
    RolloutRec.doNotRollOut
  else if (total : ℚ) * (5 / 10) < (low_data.length : ℚ) then
    RolloutRec.holdForMoreData
  else
    RolloutRec.mixedSignalHold

/-- The uplift sub-record of a metric payload: `{value, ci_low, ci_high}`,
each field possibly null. -/
structure UpliftInfo where
  value : Option ℚ
  ci_low : Option ℚ
  ci_high : Option ℚ
deriving DecidableEq, Repr

/-- One metric's payload inside a feed record, per the spec's MetricValue:
`{value, p2bb, uplift}`, each field possibly null; `uplift = none` models a
missing uplift sub-dict. -/
structure MetricData where
  value : Option ℚ
  p2bb : Option ℚ
  uplift : Option UpliftInfo
deriving DecidableEq, Repr

/-- One entry of the metrics feed: `variation_id` (possibly missing), a
mapping from metric name to payload (`none` models a missing metric key,
which in the source defaults to the empty dict), and the `audience` segment
label of segmented fetches. -/
structure MetricRecord where
  variation_id : Option String
  metric : String → Option MetricData
  audience : Option String

/-- `get_metric_value(metrics, metric_name, variation_id)` from
`intelligems-core/references/ig_metrics.py` (lines 13-22): the first record
whose variation id matches decides; a missing metric key defaults to the
empty dict, whose "value" lookup is None. -/
def get_metric_value (metrics : List MetricRecord) (metric_name variation_id : String) :
    Option ℚ :=
  match metrics with
  | [] => none
  | m :: rest =>
    if m.variation_id = some variation_id then
      match m.metric metric_name with
      | some data => data.value
      | none => none
    else get_metric_value rest metric_name variation_id

/-- `get_metric_uplift` from `ig_metrics.py` (lines 25-36): like
`get_metric_value` but through the uplift sub-dict, which also defaults to
the empty dict when missing. -/
def get_metric_uplift (metrics : List MetricRecord) (metric_name variation_id : String) :
    Option ℚ :=
  match metrics with
  | [] => none
  | m :: rest =>
    if m.variation_id = some variation_id then
      match (m.metric metric_name).bind (fun data => data.uplift) with
      | some u => u.value
      | none => none
    else get_metric_uplift rest metric_name variation_id

/-- `get_metric_confidence` from `ig_metrics.py` (lines 39-51): the p2bb
field of the first matching record's payload. -/
def get_metric_confidence (metrics : List MetricRecord) (metric_name variation_id : String) :
    Option ℚ :=
  match metrics with
  | [] => none
  | m :: rest =>
    if m.variation_id = some variation_id then
      match m.metric metric_name with
      | some data => data.p2bb
      | none => none
    else get_metric_confidence rest metric_name variation_id

/-- `get_metric_ci` from `ig_metrics.py` (lines 54-65): the pair
`(ci_low, ci_high)` of the first matching record's uplift sub-dict, or
`(None, None)`. -/
def get_metric_ci (metrics : List MetricRecord) (metric_name variation_id : String) :
    Option ℚ × Option ℚ :=
  match metrics with
  | [] => (none, none)
  | m :: rest =>
    if m.variation_id = some variation_id then
      match (m.metric metric_name).bind (fun data => data.uplift) with
      | some u => (u.ci_low, u.ci_high)
      | none => (none, none)
    else get_metric_ci rest metric_name variation_id

/-- A variation as consumed by `pick_best_variant`: the loop only reads its
id.  The source's variation dicts carry further fields (name, isControl). -/
structure Variation where
  id : String
deriving DecidableEq, Repr

/-- The loop of `pick_best_variant` from
`funnel-diagnosis/references/funnel.py` (lines 49-58; textually identical
copies live in rollout.py, spotlight.py, debrief.py and impact.py).  The two
loop variables `best` and `best_uplift`, always set together in the source,
are modelled as one optional pair. -/
def pick_best_loop (metrics : List MetricRecord) (metric_name : String) :
    Option (Variation × ℚ) → List Variation → Option (Variation × ℚ)
  | acc, [] => acc
  | acc, v :: rest =>
    match get_metric_uplift metrics metric_name v.id with
    | none => pick_best_loop metrics metric_name acc rest
    | some u =>
      match acc with
      | none => pick_best_loop metrics metric_name (some (v, u)) rest
      | some (b, bu) =>
        if bu < u then pick_best_loop metrics metric_name (some (v, u)) rest
        else pick_best_loop metrics metric_name (some (b, bu)) rest

/-- `pick_best_variant(variants, metrics, metric_name)` from `funnel.py`
(lines 49-58): the variant of the final loop state. -/
def pick_best_variant (variants : List Variation) (metrics : List MetricRecord)
    (metric_name : String) : Option Variation :=
  (pick_best_loop metrics metric_name none variants).map Prod.fst

/-- The caller-site fallback (`funnel.py` lines 273-275): `best =
pick_best_variant(...)`, then `if not best: best = variant_list[0]`. -/
def pick_best_or_first (variants : List Variation) (metrics : List MetricRecord)
    (metric_name : String) : Option Variation :=
  match pick_best_variant variants metrics metric_name with
  | some b => some b
  | none => variants.head?

/-- `compute_revenue_opportunity(seg_visitors, uplift, control_rpv, days)`
from `segment-spotlight/references/spotlight.py` (lines 86-95):
`(seg_visitors / days) * (control_rpv * uplift) * 365`, zero when uplift or
control RPV is absent or runtime or visitors are non-positive. -/
def compute_revenue_opportunity (seg_visitors : ℤ) (uplift control_rpv : Option ℚ)
    (days : ℤ) : ℚ :=
  match uplift, control_rpv with
  | some u, some c =>
    if days ≤ 0 ∨ seg_visitors ≤ 0 then 0
    else (seg_visitors : ℚ) / (days : ℚ) * (c * u) * 365
  | _, _ => 0

/-- The overall verdict selection of the test-verdict tool
(`verdict.py` lines 274-288 and 352-355): the maturity check collects an
issue for short runtime, low orders, or fewer than `MIN_VISITORS` total
visitors, and any issue forces TOO EARLY before `variation_verdict` is
consulted. -/
def overall_verdict (p2bb uplift : Option ℚ) (days total_orders total_visitors : ℤ) :
    Verdict :=
  if days < VERDICT_MIN_RUNTIME ∨ total_orders < VERDICT_MIN_ORDERS ∨
      total_visitors < MIN_VISITORS then
    Verdict.TOO_EARLY
  else variation_verdict p2bb uplift days

/-- C1: with the default thresholds, `compute_verdict` agrees with the spec's
reference `classify` definition on every input, returns one of the five overall
verdicts (never `LOW_DATA`), returns `TOO_EARLY` whenever the runtime or order
gate fails, lets a p2bb of exactly 0.80 pass the confidence check, and treats
an uplift of exactly 0.02 as neither WINNER nor LOSER. -/
theorem compute_verdict_matches_spec (p2bb uplift : Option ℚ) (d o : ℤ) :
    compute_verdict p2bb uplift d o
        = classifySpec p2bb uplift d o 10 30 (80 / 100) (2 / 100)
    ∧ compute_verdict p2bb uplift d o ≠ Verdict.LOW_DATA
    ∧ ((d < 10 ∨ o < 30) → compute_verdict p2bb uplift d o = Verdict.TOO_EARLY)
    ∧ ((10 ≤ d ∧ 30 ≤ o) → ∀ u : ℚ, 2 / 100 < u →
        compute_verdict (some (80 / 100)) (some u) d o = Verdict.WINNER)
    ∧ (uplift = some (2 / 100) →
        compute_verdict p2bb uplift d o ≠ Verdict.WINNER ∧
        compute_verdict p2bb uplift d o ≠ Verdict.LOSER) := by
  refine ⟨?_, ?_, ?_, ?_, ?_⟩
  · rcases p2bb with _ | p <;> rcases uplift with _ | u <;>
      simp [compute_verdict, classifySpec, MIN_CONFIDENCE, NEUTRAL_LIFT_THRESHOLD,
        VERDICT_MIN_RUNTIME, VERDICT_MIN_ORDERS]
  · rcases p2bb with _ | p <;> rcases uplift with _ | u <;>
      simp only [compute_verdict] <;> split_ifs <;> simp
  · intro h
    unfold compute_verdict
    rw [if_pos]
    simpa [VERDICT_MIN_RUNTIME, VERDICT_MIN_ORDERS] using h
  · rintro ⟨hd, ho⟩ u hu
    have hgate : ¬(d < VERDICT_MIN_RUNTIME ∨ o < VERDICT_MIN_ORDERS) := by
      simp only [VERDICT_MIN_RUNTIME, VERDICT_MIN_ORDERS]
      omega
    simp only [compute_verdict, if_neg hgate]
    exact if_pos ⟨le_of_eq rfl, by simpa [NEUTRAL_LIFT_THRESHOLD] using hu⟩
  · intro hu
    subst hu
    rcases p2bb with _ | p
    · simp only [compute_verdict]
      split_ifs <;> simp
    · simp only [compute_verdict]
      split_ifs with hg h1 h2 h3 <;> try simp
      · exact absurd h1.2 (by norm_num [NEUTRAL_LIFT_THRESHOLD])
      · exact absurd h2.2 (by norm_num [NEUTRAL_LIFT_THRESHOLD])

/-- C1 witness: `compute_verdict` evaluated at concrete inputs through the
theorem's conditional conjuncts. -/

theorem compute_verdict_matches_spec_witness :
    compute_verdict (some (99 / 100)) (some (5 / 10)) 5 100 = Verdict.TOO_EARLY ∧
    compute_verdict (some (80 / 100)) (some (21 / 1000)) 12 40 = Verdict.WINNER := by
  constructor
  · exact (compute_verdict_matches_spec (some (99 / 100)) (some (5 / 10)) 5 100).2.2.1
      (Or.inl (by norm_num))
  · exact (compute_verdict_matches_spec (some (80 / 100)) (some (21 / 1000)) 12 40).2.2.2.1
      ⟨by norm_num, by norm_num⟩ (21 / 1000) (by norm_num)

/-- C2 counterexample: the segment quick-check in the test-verdict tool,
given a present uplift but an absent p2bb, returns `TOO_EARLY` — so it is not
the case that every segment classification site returns `LOW_DATA` exactly
when p2bb or uplift is absent and never returns `TOO_EARLY`. -/
theorem segment_quick_check_returns_too_early :
    verdict_segment_quick_check none (some (5 / 100)) 15 = Verdict.TOO_EARLY ∧
    Verdict.TOO_EARLY ≠ Verdict.LOW_DATA := by
  exact ⟨rfl, by simp⟩

/-- C2 (amended): the dedicated segment classifier (`segment_verdict`, found
identically in spotlight.py and rollout.py) returns `LOW_DATA` exactly when
p2bb or uplift is absent, never returns `TOO_EARLY`, and otherwise applies the
same rules as the overall classifier with no runtime/order gate; the
test-verdict segment quick-check instead returns `LOW_DATA` only when uplift
is absent, delegates to `variation_verdict` when uplift is present, and hence
returns `TOO_EARLY` when uplift is present but p2bb is absent. -/
theorem segment_verdict_amended (p2bb uplift : Option ℚ) (d o : ℤ) :
    (segment_verdict p2bb uplift d = Verdict.LOW_DATA ↔ p2bb = none ∨ uplift = none)
    ∧ segment_verdict p2bb uplift d ≠ Verdict.TOO_EARLY
    ∧ ((10 ≤ d ∧ 30 ≤ o) → p2bb ≠ none → uplift ≠ none →
        segment_verdict p2bb uplift d = compute_verdict p2bb uplift d o)
    ∧ (verdict_segment_quick_check p2bb uplift d = Verdict.LOW_DATA ↔ uplift = none)
    ∧ (uplift ≠ none →
        verdict_segment_quick_check p2bb uplift d = variation_verdict p2bb uplift d)
    ∧ (p2bb = none → ∀ u : ℚ, uplift = some u →
        verdict_segment_quick_check p2bb uplift d = Verdict.TOO_EARLY) := by
  refine ⟨?_, ?_, ?_, ?_, ?_, ?_⟩
  · rcases p2bb with _ | p <;> rcases uplift with _ | u <;>
      simp only [segment_verdict] <;> try simp
    split_ifs <;> simp
  · rcases p2bb with _ | p <;> rcases uplift with _ | u <;>
      simp only [segment_verdict] <;> try simp
    split_ifs <;> simp
  · rintro ⟨hd, ho⟩ hp hu
    rcases p2bb with _ | p
    · exact absurd rfl hp
    rcases uplift with _ | u
    · exact absurd rfl hu
    have hgate : ¬(d < VERDICT_MIN_RUNTIME ∨ o < VERDICT_MIN_ORDERS) := by
      simp only [VERDICT_MIN_RUNTIME, VERDICT_MIN_ORDERS]
      omega
    simp only [segment_verdict, compute_verdict, if_neg hgate]
  · rcases uplift with _ | u <;> simp only [verdict_segment_quick_check] <;> try simp
    rcases p2bb with _ | p <;> simp only [variation_verdict] <;> try simp
    split_ifs <;> simp
  · rcases uplift with _ | u <;> simp [verdict_segment_quick_check]
  · rintro rfl u rfl
    rfl

/-- C2 witness: the amended theorem applied at concrete inputs. -/
theorem segment_verdict_amended_witness :
    segment_verdict (some (9 / 10)) (some (5 / 100)) 15 = compute_verdict (some (9 / 10)) (some (5 / 100)) 15 60 ∧
    verdict_segment_quick_check none (some (5 / 100)) 15 = Verdict.TOO_EARLY := by
  constructor
  · exact (segment_verdict_amended (some (9 / 10)) (some (5 / 100)) 15 60).2.2.1
      ⟨by norm_num, by norm_num⟩ (by simp) (by simp)
  · exact (segment_verdict_amended none (some (5 / 100)) 15 0).2.2.2.2.2 rfl (5 / 100) rfl

/-- Helper: if every present uplift in the list is flat or equal to a fixed
non-flat direction `d0`, the scan never flips, whether it starts untracked or
tracking `d0`. -/
theorem find_breakpoint_loop_const (d0 : Dir) (hd0 : d0 ≠ Dir.flat) :
    ∀ (l : List Stage) (prev : Option Dir), (prev = none ∨ prev = some d0) →
    (∀ t ∈ l, ∀ v, t.uplift = some v →
      stage_direction v = Dir.flat ∨ stage_direction v = d0) →
    find_breakpoint_loop prev l = none := by
  intro l
  induction l with
  | nil => intro prev _ _; rfl
  | cons t rest ih =>
    intro prev hprev hall
    have htail : ∀ t ∈ rest, ∀ v, t.uplift = some v →
        stage_direction v = Dir.flat ∨ stage_direction v = d0 := by
      intro t' ht' v hv
      exact hall t' (List.mem_cons_of_mem _ ht') v hv
    rcases hu : t.uplift with _ | u
    · simp only [find_breakpoint_loop, hu]
      exact ih prev hprev htail
    · rcases hall t (List.mem_cons_self _ _) u hu with hflat | hd
      · rcases hprev with rfl | rfl <;>
          simp only [find_breakpoint_loop, hu, hflat] <;> simp only [ne_eq, not_true_eq_false.symm]
        · rw [if_neg (by simp)]
          exact ih none (Or.inl rfl) htail
        · rw [if_neg (by simp [hflat]), if_neg (by simp)]
          exact ih (some d0) (Or.inr rfl) htail
      · rcases hprev with rfl | rfl
        · simp only [find_breakpoint_loop, hu]
          rw [if_pos (by simp [hd, hd0])]
          exact ih (some (stage_direction u)) (Or.inr (by rw [hd])) htail
        · simp only [find_breakpoint_loop, hu]
          rw [if_neg (by simp [hd])]
          rw [if_pos (by simp [hd, hd0])]
          exact ih (some (stage_direction u)) (Or.inr (by rw [hd])) htail

/-- Helper: scanning a prefix that is all flat-or-`d0` (with `d0` actually
seen, or already tracked) and then meeting a non-flat stage of a different
direction returns that stage. -/
theorem find_breakpoint_loop_flip (d0 : Dir) (hd0 : d0 ≠ Dir.flat)
    (s : Stage) (rest : List Stage) (u : ℚ) (hu : s.uplift = some u)
    (hnf : stage_direction u ≠ Dir.flat) (hne : stage_direction u ≠ d0) :
    ∀ (pre : List Stage) (prev : Option Dir), (prev = none ∨ prev = some d0) →
    (∀ t ∈ pre, ∀ v, t.uplift = some v →
      stage_direction v = Dir.flat ∨ stage_direction v = d0) →
    (prev = some d0 ∨ ∃ t ∈ pre, ∃ v, t.uplift = some v ∧ stage_direction v = d0) →
    find_breakpoint_loop prev (pre ++ s :: rest) = some s := by
  intro pre
  induction pre with
  | nil =>
    intro prev _ _ hseen
    rcases hseen with rfl | ⟨t, ht, _⟩
    · simp only [List.nil_append, find_breakpoint_loop, hu]
      rw [if_pos ⟨hne, hnf, hd0⟩]
    · exact absurd ht (List.not_mem_nil t)
  | cons t pre' ih =>
    intro prev hprev hall hseen
    have htail : ∀ t' ∈ pre', ∀ v, t'.uplift = some v →
        stage_direction v = Dir.flat ∨ stage_direction v = d0 := by
      intro t' ht' v hv
      exact hall t' (List.mem_cons_of_mem _ ht') v hv
    rcases hv : t.uplift with _ | v
    · simp only [List.cons_append, find_breakpoint_loop, hv]
      refine ih prev hprev htail ?_
      rcases hseen with h | ⟨t', ht', w, hw, hdw⟩
      · exact Or.inl h
      · rcases List.mem_cons.mp ht' with rfl | ht''
        · rw [hv] at hw; cases hw
        · exact Or.inr ⟨t', ht'', w, hw, hdw⟩
    · rcases hall t (List.mem_cons_self _ _) v hv with hflat | hd
      · have hseen' : prev = some d0 ∨ ∃ t' ∈ pre', ∃ w, t'.uplift = some w ∧
            stage_direction w = d0 := by
          rcases hseen with h | ⟨t', ht', w, hw, hdw⟩
          · exact Or.inl h
          · rcases List.mem_cons.mp ht' with rfl | ht''
            · rw [hv] at hw
              cases hw
              rw [hflat] at hdw
              exact absurd hdw.symm hd0
            · exact Or.inr ⟨t', ht'', w, hw, hdw⟩
        rcases hprev with rfl | rfl
        · simp only [List.cons_append, find_breakpoint_loop, hv, hflat]
          rw [if_neg (by simp)]
          exact ih none (Or.inl rfl) htail hseen'
        · simp only [List.cons_append, find_breakpoint_loop, hv, hflat]
          rw [if_neg (by simp), if_neg (by simp)]
          exact ih (some d0) (Or.inr rfl) htail hseen'
      · rcases hprev with rfl | rfl
        · simp only [List.cons_append, find_breakpoint_loop, hv]
          rw [if_pos (by simp [hd, hd0])]
          refine ih (some (stage_direction v)) (Or.inr (by rw [hd])) htail ?_
          exact Or.inl (by rw [hd])
        · simp only [List.cons_append, find_breakpoint_loop, hv]
          rw [if_neg (by simp [hd]), if_pos (by simp [hd, hd0])]
          refine ih (some (stage_direction v)) (Or.inr (by rw [hd])) htail ?_
          exact Or.inl (by rw [hd])

/-- C3: the breakpoint scan classifies present uplifts as up (> 0.005), down
(< -0.005) or flat; skips stages with absent uplift; treats flat stages as
transparent; returns the first stage whose non-flat direction differs from the
last non-flat direction seen; returns absent when no direction change occurs;
and on the spec's two concrete examples returns the third stage. -/
theorem find_breakpoint_correct :
    (∀ u : ℚ, (stage_direction u = Dir.up ↔ 5 / 1000 < u)
      ∧ (stage_direction u = Dir.down ↔ u < -(5 / 1000))
      ∧ (stage_direction u = Dir.flat ↔ ¬(5 / 1000 < u) ∧ ¬(u < -(5 / 1000))))
    ∧ (∀ (prev : Option Dir) (s : Stage) (rest : List Stage), s.uplift = none →
        find_breakpoint_loop prev (s :: rest) = find_breakpoint_loop prev rest)
    ∧ (∀ (prev : Option Dir) (s : Stage) (rest : List Stage) (u : ℚ),
        s.uplift = some u → stage_direction u = Dir.flat →
        find_breakpoint_loop prev (s :: rest) = find_breakpoint_loop prev rest)
    ∧ (∀ (pd : Dir) (s : Stage) (rest : List Stage) (u : ℚ),
        s.uplift = some u → stage_direction u ≠ Dir.flat →
        stage_direction u ≠ pd → pd ≠ Dir.flat →
        find_breakpoint_loop (some pd) (s :: rest) = some s)
    ∧ (∀ (stages : List Stage) (d0 : Dir), d0 ≠ Dir.flat →
        (∀ t ∈ stages, ∀ v, t.uplift = some v →
          stage_direction v = Dir.flat ∨ stage_direction v = d0) →
        find_breakpoint stages = none)
    ∧ (∀ (pre : List Stage) (s : Stage) (rest : List Stage) (d0 : Dir) (u : ℚ),
        s.uplift = some u → stage_direction u ≠ Dir.flat →
        stage_direction u ≠ d0 → d0 ≠ Dir.flat →
        (∀ t ∈ pre, ∀ v, t.uplift = some v →
          stage_direction v = Dir.flat ∨ stage_direction v = d0) →
        (∃ t ∈ pre, ∃ v, t.uplift = some v ∧ stage_direction v = d0) →
        find_breakpoint (pre ++ s :: rest) = some s)
    ∧ find_breakpoint
        [⟨"Add to Cart", some (10 / 100)⟩, ⟨"Begin Checkout", some (5 / 100)⟩,
         ⟨"Enter Contact Info", some (-(3 / 100))⟩, ⟨"Submit Address", some (-(8 / 100))⟩]
        = some ⟨"Enter Contact Info", some (-(3 / 100))⟩
    ∧ find_breakpoint
        [⟨"Add to Cart", some (10 / 100)⟩, ⟨"Begin Checkout", some (1 / 1000)⟩,
         ⟨"Enter Contact Info", some (-(8 / 100))⟩]
        = some ⟨"Enter Contact Info", some (-(8 / 100))⟩ := by
  refine ⟨?_, ?_, ?_, ?_, ?_, ?_, ?_, ?_⟩
  · intro u
    refine ⟨?_, ?_, ?_⟩ <;> unfold stage_direction <;> split_ifs with h1 h2 <;>
      simp_all <;> try linarith
  · intro prev s rest h
    simp only [find_breakpoint_loop, h]
  · intro prev s rest u hu hflat
    rcases prev with _ | pd <;> simp only [find_breakpoint_loop, hu, hflat]
    · rw [if_neg (by simp)]
    · rw [if_neg (by simp [hflat]), if_neg (by simp)]
  · intro pd s rest u hu hnf hne hpd
    simp only [find_breakpoint_loop, hu]
    rw [if_pos ⟨hne, hnf, hpd⟩]
  · intro stages d0 hd0 hall
    exact find_breakpoint_loop_const d0 hd0 stages none (Or.inl rfl) hall
  · intro pre s rest d0 u hu hnf hne hd0 hall hseen
    exact find_breakpoint_loop_flip d0 hd0 s rest u hu hnf hne pre none
      (Or.inl rfl) hall (Or.inr hseen)
  · have h1 : stage_direction (10 / 100) = Dir.up := by norm_num [stage_direction]
    have h2 : stage_direction (5 / 100) = Dir.up := by norm_num [stage_direction]
    have h3 : stage_direction (-(3 / 100)) = Dir.down := by norm_num [stage_direction]
    have h4 : stage_direction (-(8 / 100)) = Dir.down := by norm_num [stage_direction]
    simp [find_breakpoint, find_breakpoint_loop, h1, h2, h3, h4]
  · have h1 : stage_direction (10 / 100) = Dir.up := by norm_num [stage_direction]
    have h2 : stage_direction (1 / 1000) = Dir.flat := by norm_num [stage_direction]
    have h2' : stage_direction ((1000 : ℚ)⁻¹) = Dir.flat := by
      rw [← one_div]
      exact h2
    have h3 : stage_direction (-(8 / 100)) = Dir.down := by norm_num [stage_direction]
    simp [find_breakpoint, find_breakpoint_loop, h1, h2, h2', h3]

/-- C3 witness: the flip lemma of the claim theorem applied to a concrete
prefix and stage. -/
theorem find_breakpoint_correct_witness :
    find_breakpoint
      [⟨"Add to Cart", some (10 / 100)⟩, ⟨"Purchase", some (-(3 / 100))⟩]
      = some ⟨"Purchase", some (-(3 / 100))⟩ := by
  refine find_breakpoint_correct.2.2.2.2.2.1
    [⟨"Add to Cart", some (10 / 100)⟩] ⟨"Purchase", some (-(3 / 100))⟩ [] Dir.up
    (-(3 / 100)) rfl ?_ ?_ ?_ ?_ ?_
  · have h : stage_direction (-(3 / 100)) = Dir.down := by norm_num [stage_direction]
    simp [h]
  · have h : stage_direction (-(3 / 100)) = Dir.down := by norm_num [stage_direction]
    simp [h]
  · simp
  · intro t ht v hv
    simp only [List.mem_singleton] at ht
    subst ht
    simp only at hv
    cases hv
    right
    norm_num [stage_direction]
  · refine ⟨⟨"Add to Cart", some (10 / 100)⟩, by simp, 10 / 100, rfl, ?_⟩
    norm_num [stage_direction]

/-- C4: for positive runtime the projector computes the annualized baseline,
expected annual/monthly impact and daily opportunity cost by the spec's
formulas; the conservative bound is the baseline times a positive lower CI
bound, zero for a non-positive lower bound, and never negative (for a
non-negative per-visitor control value); the optimistic bound is taken from
the upper CI bound when present and stays absent when it is absent. -/
theorem project_impact_correct (V : ℕ) (d : ℤ) (c u : ℚ) (lo hi : Option ℚ)
    (hd : 0 < d) :
    (project_impact V d c u lo hi).annual_baseline = (V : ℚ) / (d : ℚ) * 365 * c
    ∧ (project_impact V d c u lo hi).expected_annual
        = (project_impact V d c u lo hi).annual_baseline * u
    ∧ (project_impact V d c u lo hi).expected_monthly
        = (project_impact V d c u lo hi).expected_annual / 12
    ∧ (project_impact V d c u lo hi).daily_impact
        = (project_impact V d c u lo hi).expected_annual / 365
    ∧ (∀ lq : ℚ, lo = some lq → 0 < lq →
        (project_impact V d c u lo hi).conservative_annual
          = some ((project_impact V d c u lo hi).annual_baseline * lq))
    ∧ (∀ lq : ℚ, lo = some lq → lq ≤ 0 →
        (project_impact V d c u lo hi).conservative_annual = some 0)
    ∧ (0 ≤ c → ∀ x : ℚ, (project_impact V d c u lo hi).conservative_annual = some x →
        0 ≤ x)
    ∧ (∀ hq : ℚ, hi = some hq →
        (project_impact V d c u lo hi).optimistic_annual
          = some ((project_impact V d c u lo hi).annual_baseline * hq))
    ∧ (hi = none → (project_impact V d c u lo hi).optimistic_annual = none) := by
  have hdv : daily_visitors V d = (V : ℚ) / (d : ℚ) := by
    rw [daily_visitors, if_neg (not_le.mpr hd)]
  have hfields : project_impact V d c u lo hi =
      ⟨(V : ℚ) / (d : ℚ) * 365 * c,
       (V : ℚ) / (d : ℚ) * 365 * c * u,
       (match lo with
        | some l => some (if 0 < l then (V : ℚ) / (d : ℚ) * 365 * c * l else 0)
        | none => none),
       (match hi with
        | some h => some ((V : ℚ) / (d : ℚ) * 365 * c * h)
        | none => none),
       (V : ℚ) / (d : ℚ) * 365 * c * u / 12,
       if (V : ℚ) / (d : ℚ) * 365 * c * u ≠ 0 then (V : ℚ) / (d : ℚ) * 365 * c * u / 365
       else 0⟩ := by
    simp only [project_impact, if_pos hd, hdv]
  have hbase_nonneg : 0 ≤ c → (0 : ℚ) ≤ (V : ℚ) / (d : ℚ) * 365 * c := by
    intro hc
    have hdq : (0 : ℚ) ≤ (d : ℚ) := by exact_mod_cast hd.le
    positivity
  rw [hfields]
  refine ⟨rfl, rfl, rfl, ?_, ?_, ?_, ?_, ?_, ?_⟩
  · by_cases hz : (V : ℚ) / (d : ℚ) * 365 * c * u = 0
    · show (if _ then _ else _) = _
      rw [if_neg (not_not_intro hz), hz, zero_div]
    · show (if _ then _ else _) = _
      rw [if_pos hz]
  · rintro lq rfl hlq
    show some _ = some _
    rw [if_pos hlq]
  · rintro lq rfl hlq
    show some _ = some _
    rw [if_neg (not_lt.mpr hlq)]
  · intro hc x hx
    rcases lo with _ | lq
    · exact absurd hx (by simp)
    · simp only [Option.some_inj] at hx
      subst hx
      split_ifs with hlq
      · exact mul_nonneg (hbase_nonneg hc) hlq.le
      · exact le_refl 0
  · rintro hq rfl
    rfl
  · rintro rfl
    rfl

/-- C4 witness: the theorem applied to the spec's worked example — 1000
visitors over 10 days at a $2.00 control value, a +10% uplift and CI bounds
(-0.02, 0.20) give a $73,000 baseline, $7,300 expected annual impact, a zero
conservative bound and a $14,600 optimistic bound. -/
theorem project_impact_correct_witness :
    (project_impact 1000 10 2 (10 / 100) (some (-(2 / 100))) (some (20 / 100))).annual_baseline
        = 73000
    ∧ (project_impact 1000 10 2 (10 / 100) (some (-(2 / 100))) (some (20 / 100))).expected_annual
        = 7300
    ∧ (project_impact 1000 10 2 (10 / 100) (some (-(2 / 100))) (some (20 / 100))).conservative_annual
        = some 0
    ∧ (project_impact 1000 10 2 (10 / 100) (some (-(2 / 100))) (some (20 / 100))).optimistic_annual
        = some 14600 := by
  obtain ⟨h1, h2, _, _, _, h6, _, h8, _⟩ :=
    project_impact_correct 1000 10 2 (10 / 100) (some (-(2 / 100))) (some (20 / 100))
      (by norm_num)
  have hb : (project_impact 1000 10 2 (10 / 100) (some (-(2 / 100))) (some (20 / 100))).annual_baseline
      = 73000 := by
    rw [h1]
    norm_num
  refine ⟨hb, ?_, ?_, ?_⟩
  · rw [h2, hb]
    norm_num
  · exact h6 (-(2 / 100)) rfl (by norm_num)
  · rw [h8 (20 / 100) rfl, hb]
    norm_num

/-- C5: the contradiction flag is true exactly when both uplifts are present
and their signs oppose beyond the ±0.02 dead-zone; it is false when either is
absent or either lies inside the dead-zone; and the spec's two concrete
examples evaluate as stated. -/
theorem contradiction_flag_correct (o s : Option ℚ) :
    (contradiction_flag o s = true ↔ ∃ oq sq : ℚ, o = some oq ∧ s = some sq ∧
      ((2 / 100 < oq ∧ sq < -(2 / 100)) ∨ (oq < -(2 / 100) ∧ 2 / 100 < sq)))
    ∧ (o = none → contradiction_flag o s = false)
    ∧ (s = none → contradiction_flag o s = false)
    ∧ (∀ oq sq : ℚ, o = some oq → s = some sq →
        -(2 / 100) ≤ oq → oq ≤ 2 / 100 → contradiction_flag o s = false)
    ∧ (∀ oq sq : ℚ, o = some oq → s = some sq →
        -(2 / 100) ≤ sq → sq ≤ 2 / 100 → contradiction_flag o s = false)
    ∧ contradiction_flag (some (5 / 100)) (some (-(4 / 100))) = true
    ∧ contradiction_flag (some (5 / 100)) (some (-(1 / 100))) = false := by
  refine ⟨?_, ?_, ?_, ?_, ?_, ?_, ?_⟩
  · rcases o with _ | oq <;> rcases s with _ | sq <;>
      simp [contradiction_flag, NEUTRAL_LIFT_THRESHOLD]
  · rintro rfl
    rfl
  · rintro rfl
    rcases o with _ | oq <;> rfl
  · rintro oq sq rfl rfl hlo hhi
    simp only [contradiction_flag, NEUTRAL_LIFT_THRESHOLD]
    rw [if_neg (by intro h; linarith [h.1]), if_neg (by intro h; linarith [h.1])]
  · rintro oq sq rfl rfl hlo hhi
    simp only [contradiction_flag, NEUTRAL_LIFT_THRESHOLD]
    rw [if_neg (by intro h; linarith [h.2]), if_neg (by intro h; linarith [h.2])]
  · simp only [contradiction_flag, NEUTRAL_LIFT_THRESHOLD]
    rw [if_pos (by norm_num)]
  · simp only [contradiction_flag, NEUTRAL_LIFT_THRESHOLD]
    rw [if_neg (by norm_num), if_neg (by norm_num)]

/-- C5 witness: the absence conjuncts of the claim theorem applied at
concrete inputs. -/
theorem contradiction_flag_correct_witness :
    contradiction_flag none (some (4 / 100)) = false ∧
    contradiction_flag (some (5 / 100)) (some (-(1 / 100))) = false :=
  ⟨(contradiction_flag_correct none (some (4 / 100))).2.1 rfl,
   (contradiction_flag_correct (some (5 / 100)) (some (-(1 / 100)))).2.2.2.2.1
     (5 / 100) (-(1 / 100)) rfl rfl (by norm_num) (by norm_num)⟩

/-- C6 counterexample: on the empty segment list the spec's rules, evaluated
in order, select the broad roll-out (zero losers and 0 ≥ 0.5·0 winners), but
the code short-circuits to a "no data" hold — so the recommendation does not
follow the composition rules for every list of segment results. -/
theorem rollout_recommendation_empty_list :
    recommendation_spec [] = RolloutRec.rollOutBroadly ∧
    rollout_recommendation [] = ("HOLD", "No segment data available for analysis.") ∧
    (rollout_recommendation []).1 ≠ "ROLL OUT" := by
  refine ⟨?_, rfl, ?_⟩
  · norm_num [recommendation_spec]
  · intro h
    simp only [rollout_recommendation] at h
    exact absurd h (by decide)

/-- C6 (amended): for every nonempty list of segment results the rollout
recommendation follows the spec's composition rules evaluated in order; the
empty list instead short-circuits to a hold with a no-data message. -/
theorem rollout_recommendation_amended (segments : List SegResult)
    (hne : segments ≠ []) :
    (recommendation_spec segments = RolloutRec.rollOutBroadly →
      rollout_recommendation segments
        = ("ROLL OUT", "No losing segments. Roll out to all traffic."))
    ∧ (recommendation_spec segments = RolloutRec.segmentSpecific →
      rollout_recommendation segments
        = ("SEGMENT-SPECIFIC", segment_specific_reason
            (segments.filter (fun s => s.verdict = Verdict.WINNER))
            (segments.filter (fun s => s.verdict = Verdict.LOSER))))
    ∧ (recommendation_spec segments = RolloutRec.doNotRollOut →
      rollout_recommendation segments
        = ("DON'T ROLL OUT", "No winning segments found. The variant is hurting performance."))
    ∧ (recommendation_spec segments = RolloutRec.holdForMoreData →
      rollout_recommendation segments
        = ("HOLD", "Most segments have insufficient data. Let the test run longer."))
    ∧ (recommendation_spec segments = RolloutRec.mixedSignalHold →
      rollout_recommendation segments
        = ("HOLD", "Mixed signals. Monitor for another few days before making a call.")) := by
  have htot : segments.length ≠ 0 := by
    intro h
    exact hne (List.length_eq_zero.mp h)
  simp only [rollout_recommendation, recommendation_spec]
  rw [if_neg htot]
  split_ifs <;> refine ⟨?_, ?_, ?_, ?_, ?_⟩ <;> intro hr <;> first
    | rfl
    | exact absurd hr (by simp)

/-- C6 witness: the amended theorem applied to a concrete two-segment list
with one winner and one loser. -/
theorem rollout_recommendation_amended_witness :
    rollout_recommendation [⟨"Mobile", Verdict.WINNER⟩, ⟨"Desktop", Verdict.LOSER⟩]
      = ("SEGMENT-SPECIFIC", segment_specific_reason
          [⟨"Mobile", Verdict.WINNER⟩] [⟨"Desktop", Verdict.LOSER⟩]) := by
  have h := (rollout_recommendation_amended
    [⟨"Mobile", Verdict.WINNER⟩, ⟨"Desktop", Verdict.LOSER⟩] (by simp)).2.1
    (by norm_num [recommendation_spec])
  simpa using h

/-- C9: the four metric accessors are total lookups over the feed: each one
is the stated pure function of the first record matching the variation id,
returning absent when no record matches or when the metric, its uplift
sub-record, or the requested field is missing — the absent result is
returned as-is. -/
theorem metric_accessors_total (metrics : List MetricRecord) (name vid : String) :
    get_metric_value metrics name vid
      = (metrics.find? (fun m => m.variation_id = some vid)).bind
          (fun m => (m.metric name).bind (fun data => data.value))
    ∧ get_metric_uplift metrics name vid
      = (metrics.find? (fun m => m.variation_id = some vid)).bind
          (fun m => ((m.metric name).bind (fun data => data.uplift)).bind
            (fun u => u.value))
    ∧ get_metric_confidence metrics name vid
      = (metrics.find? (fun m => m.variation_id = some vid)).bind
          (fun m => (m.metric name).bind (fun data => data.p2bb))
    ∧ get_metric_ci metrics name vid
      = ((metrics.find? (fun m => m.variation_id = some vid)).bind
          (fun m => (m.metric name).bind (fun data => data.uplift))).elim
          (none, none) (fun u => (u.ci_low, u.ci_high)) := by
  induction metrics with
  | nil => exact ⟨rfl, rfl, rfl, rfl⟩
  | cons m rest ih =>
    obtain ⟨ih1, ih2, ih3, ih4⟩ := ih
    by_cases h : m.variation_id = some vid
    · have hf : List.find? (fun m => decide (m.variation_id = some vid)) (m :: rest)
          = some m := by
        simp [List.find?, h]
      refine ⟨?_, ?_, ?_, ?_⟩ <;> rw [hf]
      · simp only [get_metric_value, if_pos h, Option.some_bind]
        rcases m.metric name with _ | data <;> rfl
      · simp only [get_metric_uplift, if_pos h, Option.some_bind]
        rcases (m.metric name).bind (fun data => data.uplift) with _ | u <;> rfl
      · simp only [get_metric_confidence, if_pos h, Option.some_bind]
        rcases m.metric name with _ | data <;> rfl
      · simp only [get_metric_ci, if_pos h, Option.some_bind]
        rcases (m.metric name).bind (fun data => data.uplift) with _ | u <;> rfl
    · have hf : List.find? (fun m => decide (m.variation_id = some vid)) (m :: rest)
          = List.find? (fun m => decide (m.variation_id = some vid)) rest := by
        simp [List.find?, h]
      refine ⟨?_, ?_, ?_, ?_⟩ <;> rw [hf]
      · simp only [get_metric_value, if_neg h]
        exact ih1
      · simp only [get_metric_uplift, if_neg h]
        exact ih2
      · simp only [get_metric_confidence, if_neg h]
        exact ih3
      · simp only [get_metric_ci, if_neg h]
        exact ih4

/-- Helper: the best-variant loop returns `none` exactly when it started with
no candidate and no variant in the list has a present uplift. -/
theorem pick_best_loop_none (metrics : List MetricRecord) (name : String) :
    ∀ (l : List Variation) (acc : Option (Variation × ℚ)),
    (pick_best_loop metrics name acc l = none ↔
      acc = none ∧ ∀ v ∈ l, get_metric_uplift metrics name v.id = none) := by
  intro l
  induction l with
  | nil =>
    intro acc
    simp [pick_best_loop]
  | cons v rest ih =>
    intro acc
    rcases hu : get_metric_uplift metrics name v.id with _ | u
    · simp only [pick_best_loop, hu]
      rw [ih acc]
      constructor
      · rintro ⟨ha, hall⟩
        refine ⟨ha, ?_⟩
        intro w hw
        rcases List.mem_cons.mp hw with rfl | hw'
        · exact hu
        · exact hall w hw'
      · rintro ⟨ha, hall⟩
        exact ⟨ha, fun w hw => hall w (List.mem_cons_of_mem _ hw)⟩
    · rcases acc with _ | ⟨b, bu⟩
      · simp only [pick_best_loop, hu]
        rw [ih (some (v, u))]
        constructor
        · rintro ⟨h, _⟩
          cases h
        · rintro ⟨_, hall⟩
          exact absurd (hall v (List.mem_cons_self _ _)) (by simp [hu])
      · simp only [pick_best_loop, hu]
        split_ifs with hlt
        · rw [ih (some (v, u))]
          constructor
          · rintro ⟨h, _⟩
            cases h
          · rintro ⟨h, _⟩
            cases h
        · rw [ih (some (b, bu))]
          constructor
          · rintro ⟨h, _⟩
            cases h
          · rintro ⟨h, _⟩
            cases h

/-- Helper: a pair returned by the best-variant loop is either the starting
candidate or drawn from the list with its recorded uplift, and its uplift
bounds every present uplift in the list as well as the starting candidate's
uplift. -/
theorem pick_best_loop_le (metrics : List MetricRecord) (name : String) :
    ∀ (l : List Variation) (acc : Option (Variation × ℚ)) (p : Variation × ℚ),
    pick_best_loop metrics name acc l = some p →
    (acc = some p ∨ (p.1 ∈ l ∧ get_metric_uplift metrics name p.1.id = some p.2))
    ∧ (∀ v ∈ l, ∀ uv, get_metric_uplift metrics name v.id = some uv → uv ≤ p.2)
    ∧ (∀ b0 u0, acc = some (b0, u0) → u0 ≤ p.2) := by
  intro l
  induction l with
  | nil =>
    intro acc p hp
    simp only [pick_best_loop] at hp
    subst hp
    refine ⟨Or.inl rfl, by simp, ?_⟩
    rintro b0 u0 h
    injection h with h2
    subst h2
    exact le_refl _
  | cons v rest ih =>
    intro acc p hp
    rcases hu : get_metric_uplift metrics name v.id with _ | u <;>
      simp only [pick_best_loop, hu] at hp
    · obtain ⟨hA, hB, hC⟩ := ih acc p hp
      refine ⟨?_, ?_, hC⟩
      · rcases hA with h | ⟨hmem, hup⟩
        · exact Or.inl h
        · exact Or.inr ⟨List.mem_cons_of_mem _ hmem, hup⟩
      · intro w hw uv huv
        rcases List.mem_cons.mp hw with rfl | hw'
        · rw [hu] at huv
          cases huv
        · exact hB w hw' uv huv
    · rcases acc with _ | ⟨b, bu⟩
      · obtain ⟨hA, hB, hC⟩ := ih (some (v, u)) p hp
        have hvle : u ≤ p.2 := hC v u rfl
        refine ⟨?_, ?_, ?_⟩
        · rcases hA with h | ⟨hmem, hup⟩
          · injection h with h2
            subst h2
            exact Or.inr ⟨List.mem_cons_self _ _, hu⟩
          · exact Or.inr ⟨List.mem_cons_of_mem _ hmem, hup⟩
        · intro w hw uv huv
          rcases List.mem_cons.mp hw with rfl | hw'
          · rw [hu] at huv
            injection huv with h2
            subst h2
            exact hvle
          · exact hB w hw' uv huv
        · rintro b0 u0 h
          cases h
      · have hp' : (if bu < u then pick_best_loop metrics name (some (v, u)) rest
            else pick_best_loop metrics name (some (b, bu)) rest) = some p := hp
        split_ifs at hp' with hlt
        · obtain ⟨hA, hB, hC⟩ := ih (some (v, u)) p hp'
          have hvle : u ≤ p.2 := hC v u rfl
          refine ⟨?_, ?_, ?_⟩
          · rcases hA with h | ⟨hmem, hup⟩
            · injection h with h2
              subst h2
              exact Or.inr ⟨List.mem_cons_self _ _, hu⟩
            · exact Or.inr ⟨List.mem_cons_of_mem _ hmem, hup⟩
          · intro w hw uv huv
            rcases List.mem_cons.mp hw with rfl | hw'
            · rw [hu] at huv
              injection huv with h2
              subst h2
              exact hvle
            · exact hB w hw' uv huv
          · rintro b0 u0 h
            injection h with h2
            injection h2 with h3 h4
            subst h4
            exact le_of_lt (lt_of_lt_of_le hlt hvle)
        · obtain ⟨hA, hB, hC⟩ := ih (some (b, bu)) p hp'
          have hble : bu ≤ p.2 := hC b bu rfl
          refine ⟨?_, ?_, ?_⟩
          · rcases hA with h | ⟨hmem, hup⟩
            · exact Or.inl h
            · exact Or.inr ⟨List.mem_cons_of_mem _ hmem, hup⟩
          · intro w hw uv huv
            rcases List.mem_cons.mp hw with rfl | hw'
            · rw [hu] at huv
              injection huv with h2
              subst h2
              exact le_trans (not_lt.mp hlt) hble
            · exact hB w hw' uv huv
          · rintro b0 u0 h
            injection h with h2
            injection h2 with h3 h4
            subst h4
            exact hble

/-- Helper: a pair returned by the best-variant loop that did not come from
the starting candidate sits at a position of the list such that every earlier
present uplift is strictly smaller — the loop keeps the first maximum. -/
theorem pick_best_loop_first (metrics : List MetricRecord) (name : String) :
    ∀ (l : List Variation) (acc : Option (Variation × ℚ)) (p : Variation × ℚ),
    pick_best_loop metrics name acc l = some p →
    acc = some p ∨
    (get_metric_uplift metrics name p.1.id = some p.2 ∧
     ∃ pre post, l = pre ++ p.1 :: post
       ∧ (∀ v ∈ pre, ∀ uv, get_metric_uplift metrics name v.id = some uv → uv < p.2)
       ∧ (∀ b0 u0, acc = some (b0, u0) → u0 < p.2)) := by
  intro l
  induction l with
  | nil =>
    intro acc p hp
    simp only [pick_best_loop] at hp
    exact Or.inl hp
  | cons v rest ih =>
    intro acc p hp
    rcases hu : get_metric_uplift metrics name v.id with _ | u <;>
      simp only [pick_best_loop, hu] at hp
    · rcases ih acc p hp with h | ⟨hup, pre, post, heq, hpre, hacc⟩
      · exact Or.inl h
      · refine Or.inr ⟨hup, v :: pre, post, by rw [heq, List.cons_append], ?_, hacc⟩
        intro w hw uv huv
        rcases List.mem_cons.mp hw with rfl | hw'
        · rw [hu] at huv
          cases huv
        · exact hpre w hw' uv huv
    · rcases acc with _ | ⟨b, bu⟩
      · rcases ih (some (v, u)) p hp with h | ⟨hup, pre, post, heq, hpre, hacc⟩
        · injection h with h2
          subst h2
          refine Or.inr ⟨hu, [], rest, rfl, by simp, ?_⟩
          rintro b0 u0 h
          cases h
        · have hult : u < p.2 := hacc v u rfl
          refine Or.inr ⟨hup, v :: pre, post, by rw [heq, List.cons_append], ?_, ?_⟩
          · intro w hw uv huv
            rcases List.mem_cons.mp hw with rfl | hw'
            · rw [hu] at huv
              injection huv with h2
              subst h2
              exact hult
            · exact hpre w hw' uv huv
          · rintro b0 u0 h
            cases h
      · have hp' : (if bu < u then pick_best_loop metrics name (some (v, u)) rest
            else pick_best_loop metrics name (some (b, bu)) rest) = some p := hp
        split_ifs at hp' with hlt
        · rcases ih (some (v, u)) p hp' with h | ⟨hup, pre, post, heq, hpre, hacc⟩
          · injection h with h2
            subst h2
            refine Or.inr ⟨hu, [], rest, rfl, by simp, ?_⟩
            rintro b0 u0 h
            injection h with h2
            injection h2 with h3 h4
            subst h4
            exact hlt
          · have hult : u < p.2 := hacc v u rfl
            refine Or.inr ⟨hup, v :: pre, post, by rw [heq, List.cons_append], ?_, ?_⟩
            · intro w hw uv huv
              rcases List.mem_cons.mp hw with rfl | hw'
              · rw [hu] at huv
                injection huv with h2
                subst h2
                exact hult
              · exact hpre w hw' uv huv
            · rintro b0 u0 h
              injection h with h2
              injection h2 with h3 h4
              subst h4
              exact lt_trans hlt hult
        · rcases ih (some (b, bu)) p hp' with h | ⟨hup, pre, post, heq, hpre, hacc⟩
          · exact Or.inl h
          · have hblt : bu < p.2 := hacc b bu rfl
            refine Or.inr ⟨hup, v :: pre, post, by rw [heq, List.cons_append], ?_, ?_⟩
            · intro w hw uv huv
              rcases List.mem_cons.mp hw with rfl | hw'
              · rw [hu] at huv
                injection huv with h2
                subst h2
                exact lt_of_le_of_lt (not_lt.mp hlt) hblt
              · exact hpre w hw' uv huv
            · rintro b0 u0 h
              injection h with h2
              injection h2 with h3 h4
              subst h4
              exact hblt

/-- C7: `pick_best_variant` returns a variant carrying the greatest present
uplift, every earlier variant in list order has a strictly smaller present
uplift (ties keep the first encountered), it returns absent exactly when no
variant has a present uplift, and the caller-site fallback then
deterministically selects the first variant of the list. -/
theorem pick_best_variant_correct (variants : List Variation)
    (metrics : List MetricRecord) (name : String) :
    (pick_best_variant variants metrics name = none ↔
      ∀ v ∈ variants, get_metric_uplift metrics name v.id = none)
    ∧ (∀ b, pick_best_variant variants metrics name = some b →
        ∃ ub, get_metric_uplift metrics name b.id = some ub
          ∧ (∀ v ∈ variants, ∀ uv,
              get_metric_uplift metrics name v.id = some uv → uv ≤ ub)
          ∧ ∃ pre post, variants = pre ++ b :: post
              ∧ ∀ v ∈ pre, ∀ uv,
                  get_metric_uplift metrics name v.id = some uv → uv < ub)
    ∧ (pick_best_variant variants metrics name = none →
        pick_best_or_first variants metrics name = variants.head?)
    ∧ (∀ b, pick_best_variant variants metrics name = some b →
        pick_best_or_first variants metrics name = some b) := by
  refine ⟨?_, ?_, ?_, ?_⟩
  · unfold pick_best_variant
    rw [Option.map_eq_none']
    exact (pick_best_loop_none metrics name variants none).trans (by simp)
  · intro b hb
    unfold pick_best_variant at hb
    rcases Option.map_eq_some'.mp hb with ⟨p, hp, hp1⟩
    subst hp1
    obtain ⟨_, hB, _⟩ := pick_best_loop_le metrics name variants none p hp
    rcases pick_best_loop_first metrics name variants none p hp with h |
      ⟨hup, pre, post, heq, hpre, _⟩
    · cases h
    · exact ⟨p.2, hup, hB, pre, post, heq, hpre⟩
  · intro h
    unfold pick_best_or_first
    rw [h]
  · intro b hb
    unfold pick_best_or_first
    rw [hb]

/-- C7 witness: with an empty feed no variant has uplift data, and the
caller-side fallback deterministically picks the first variant. -/
theorem pick_best_variant_correct_witness :
    pick_best_or_first [⟨"v1"⟩, ⟨"v2"⟩] [] "net_revenue_per_visitor"
      = some ⟨"v1"⟩ := by
  have h := (pick_best_variant_correct [⟨"v1"⟩, ⟨"v2"⟩] [] "net_revenue_per_visitor").2.2.1
    rfl
  simpa using h

/-- C8: for a (non-negative) segment visitor count, the revenue opportunity
equals `(segmentVisitors / runtimeDays) * (controlRevenuePerVisitor *
segmentUplift) * 365` when uplift and control RPV are present and runtime is
positive, and equals 0.0 when either is absent or runtime is non-positive; it
is total, never absent. -/
theorem compute_revenue_opportunity_correct (v : ℤ) (u c : Option ℚ) (d : ℤ)
    (hv : 0 ≤ v) :
    (∀ uq cq, u = some uq → c = some cq → 0 < d →
      compute_revenue_opportunity v u c d = (v : ℚ) / (d : ℚ) * (cq * uq) * 365)
    ∧ (u = none ∨ c = none ∨ d ≤ 0 → compute_revenue_opportunity v u c d = 0) := by
  constructor
  · rintro uq cq rfl rfl hd
    simp only [compute_revenue_opportunity]
    by_cases hz : v ≤ 0
    · have hv0 : v = 0 := le_antisymm hz hv
      subst hv0
      rw [if_pos (Or.inr (le_refl 0))]
      norm_num
    · rw [if_neg (by push_neg; exact ⟨hd, not_le.mp hz⟩)]
  · intro h
    rcases u with _ | uq
    · rfl
    rcases c with _ | cq
    · rfl
    rcases h with h | h | h
    · cases h
    · cases h
    · simp only [compute_revenue_opportunity]
      rw [if_pos (Or.inl h)]

/-- C8 witness: the theorem applied at concrete inputs — present data over a
positive runtime uses the formula, absent uplift yields zero. -/
theorem compute_revenue_opportunity_correct_witness :
    compute_revenue_opportunity 700 (some (10 / 100)) (some 2) 7
      = (700 : ℚ) / (7 : ℚ) * (2 * (10 / 100)) * 365 ∧
    compute_revenue_opportunity 700 none (some 2) 7 = 0 :=
  ⟨(compute_revenue_opportunity_correct 700 (some (10 / 100)) (some 2) 7
      (by norm_num)).1 (10 / 100) 2 rfl rfl (by norm_num),
   (compute_revenue_opportunity_correct 700 none (some 2) 7 (by norm_num)).2
      (Or.inl rfl)⟩

/-- C10: the test-verdict tool's verdict is forced to TOO EARLY whenever the
total visitor count is below 100, regardless of runtime, orders, p2bb and
uplift; when all three maturity gates pass, the verdict is exactly
`variation_verdict`'s classification. -/
theorem overall_verdict_visitor_gate (p2bb uplift : Option ℚ)
    (d o tv : ℤ) :
    (tv < 100 → overall_verdict p2bb uplift d o tv = Verdict.TOO_EARLY)
    ∧ (10 ≤ d → 30 ≤ o → 100 ≤ tv →
        overall_verdict p2bb uplift d o tv = variation_verdict p2bb uplift d) := by
  constructor
  · intro h
    unfold overall_verdict
    rw [if_pos (Or.inr (Or.inr (by simpa [MIN_VISITORS] using h)))]
  · intro hd ho htv
    unfold overall_verdict
    rw [if_neg]
    simp only [VERDICT_MIN_RUNTIME, VERDICT_MIN_ORDERS, MIN_VISITORS]
    omega

/-- C10 witness: a decisively winning variation (p2bb 0.99, uplift +50%,
30 days, 500 orders) is still TOO EARLY at 99 visitors. -/
theorem overall_verdict_visitor_gate_witness :
    overall_verdict (some (99 / 100)) (some (5 / 10)) 30 500 99
      = Verdict.TOO_EARLY :=
  (overall_verdict_visitor_gate (some (99 / 100)) (some (5 / 10)) 30 500 99).1
    (by norm_num)

end Intelligems
